import Mathlib

/-
Verification development for the wifi-intrusion-backend repository.

The embedding models, from the source:
  - models/Network.js        : the NetworkRec structure (Mongoose schema);
  - services/threatDetection.js : the ThreatDetector class (assessThreat and
    its six detectors, getRecommendation);
  - routes/api.js            : the scan intake loop (POST /scan), the manual
    status patch (PATCH /networks/:id/status) and the threat query
    (GET /threats).

Modelling conventions:
  - Timestamps are Nat (abstract instants); nothing in the claims depends on
    wall-clock values, so one batch uses a single instant.
  - The Mongo record identifier (_id) is modelled by the unique bssid key,
    which the schema declares unique.
  - The persistent store is a list of records in insertion order; a full read
    (Network.find with an empty filter) returns that list, which models the
    natural read order the routes rely on.
  - JavaScript string falsiness (undefined or empty) is modelled by
    jsFalsyStr on Option String.
  - encType values are restricted by the schema enum to the six listed
    constructors, so the model uses an inductive type.
-/

inductive EncType where
  | Open
  | WEP
  | WPA
  | WPA2
  | WPA3
  | Unknown
deriving Repr, DecidableEq

inductive Status where
  | trusted
  | unknown
  | suspicious
deriving Repr, DecidableEq

/-- One history entry of a network record: a signal reading and its time. -/
structure HistEntry where
  rssi : Int
  timestamp : Nat
deriving Repr, DecidableEq

/-- AccessPointRecord, from the Mongoose NetworkSchema in models/Network.js. -/
structure NetworkRec where
  ssid : String
  bssid : String
  rssi : Int
  channel : Int
  encType : EncType
  firstSeen : Nat
  lastSeen : Nat
  seenCount : Nat
  status : Status
  history : List HistEntry
  deviceId : String
deriving Repr, DecidableEq

/-- One threat finding, as returned by a triggered detector. -/
structure ThreatFinding where
  type : String
  severity : String
  description : String
  details : String
deriving Repr, DecidableEq

/-- The recommendation object built by ThreatDetector.getRecommendation. -/
structure Recommendation where
  general : String
  specific : List String
deriving Repr, DecidableEq

/-- The assessment returned by ThreatDetector.assessThreat.  The timestamp
field of the JavaScript object (a wall-clock Date) is omitted. -/
structure ThreatAssessment where
  networkId : String
  ssid : String
  bssid : String
  riskLevel : String
  harmScore : Nat
  threats : List ThreatFinding
  recommendation : Recommendation
  isHarmful : Bool
deriving Repr, DecidableEq

/-- Character-list version of startsWith used by the pattern helpers. -/
def listStartsWith : List Char → List Char → Bool
  | _, [] => true
  | [], _ :: _ => false
  | c :: s, p :: ps => c == p && listStartsWith s ps

/-- A JavaScript line terminator: the dot of a regex without the s flag
matches every character except these. -/
def isLineTerm (c : Char) : Bool :=
  c.val == 10 || c.val == 13 || c.val == 0x2028 || c.val == 0x2029

/-- Match, at the head of s, the regex shape a.?b : the characters of a, then
an optional single non-line-terminator, then the characters of b. -/
def matchPairAt (a b s : List Char) : Bool :=
  listStartsWith s (a ++ b) ||
  (listStartsWith s a &&
    (match s.drop a.length with
     | [] => false
     | c :: rest => !isLineTerm c && listStartsWith rest b))

/-- Search the regex shape a.?b anywhere in s (regex test semantics). -/
def searchPair (a b : List Char) : List Char → Bool
  | [] => matchPairAt a b []
  | c :: rest => matchPairAt a b (c :: rest) || searchPair a b rest

/-- Plain substring search, for the patterns without an optional dot. -/
def searchSub (p : List Char) : List Char → Bool
  | [] => listStartsWith [] p
  | c :: rest => listStartsWith (c :: rest) p || searchSub p rest

def jsToLower (s : String) : String := String.mk (s.data.map Char.toLower)

def jsToUpper (s : String) : String := String.mk (s.data.map Char.toUpper)

/-- JavaScript falsiness for an optional string field: undefined or empty. -/
def jsFalsyStr : Option String → Bool
  | none => true
  | some s => s.isEmpty

/-- The or-with-default idiom (field or fallback) on optional strings. -/
def jsOrStr (o : Option String) (d : String) : String :=
  if jsFalsyStr o then d else o.getD d

/-- String interpolation of a possibly undefined value. -/
def showJsOpt : Option String → String
  | none => "undefined"
  | some s => s

/-- The suspiciousSSIDs table of threatPatterns: each case-insensitive regex
has the shape a.?b (b empty models a plain substring pattern such as
hotspot).  Applied to the lowercased ssid. -/
def ssidPatternHit (ssid : String) : Bool :=
  let s := (jsToLower ssid).data
  searchPair "free".data "wifi".data s ||
  searchPair "guest".data "network".data s ||
  searchPair "open".data "wifi".data s ||
  searchPair "wifi".data "free".data s ||
  searchSub "hotspot".data s ||
  searchPair "android".data "ap".data s ||
  searchPair "iphone".data "hotspot".data s ||
  searchPair "mobile".data "hotspot".data s

/-- ThreatDetector.checkSuspiciousSSID. -/
def checkSuspiciousSSID (ssid : String) : Option ThreatFinding :=
  if ssid.isEmpty || ssid == "Hidden Network" then none
  else if ssidPatternHit ssid then
    some { type := "suspicious_ssid", severity := "medium",
           description := "Potentially deceptive network name: \"" ++ ssid ++ "\"",
           details := "This SSID pattern is commonly used by attackers for social engineering" }
  else none

/-- ThreatDetector.detectEvilTwin. -/
def detectEvilTwin (network : NetworkRec) (allNetworks : List NetworkRec) : Option ThreatFinding :=
  let similarNetworks := allNetworks.filter fun n =>
    n.ssid == network.ssid && n.bssid != network.bssid
  if similarNetworks.length > 0 then
    let hasWeakerSecurity := similarNetworks.any fun n =>
      (network.encType == EncType.Open && n.encType != EncType.Open) ||
      (network.encType == EncType.WEP &&
        [EncType.WPA, EncType.WPA2, EncType.WPA3].contains n.encType)
    if hasWeakerSecurity || network.encType == EncType.Open then
      some { type := "evil_twin", severity := "high",
             description := "Potential Evil Twin attack detected for \"" ++ network.ssid ++ "\"",
             details := "Found " ++ toString (similarNetworks.length + 1) ++
               " networks with same name but different security levels" }
    else none
  else none

/-- ThreatDetector.checkOpenNetwork. -/
def checkOpenNetwork (network : NetworkRec) : Option ThreatFinding :=
  if network.encType == EncType.Open then
    some { type := "open_network", severity := "medium",
           description := "Unsecured wireless network detected",
           details := "Open networks can be used for man-in-the-middle attacks and data interception" }
  else none

/-- Maximum of a list of integers (Math.max over a spread array; the list is
never empty where this is called). -/
def listMaxOf : List Int → Int
  | [] => 0
  | x :: xs => xs.foldl max x

/-- Minimum of a list of integers (Math.min over a spread array). -/
def listMinOf : List Int → Int
  | [] => 0
  | x :: xs => xs.foldl min x

/-- ThreatDetector.detectSignalAnomalies: requires at least 5 history
entries; over the last 10 entries (slice of -10) fires on a signal variation
above the rapidSignalChanges threshold of 20, otherwise on a seenCount above
the highSeenCount threshold of 100. -/
def detectSignalAnomalies (network : NetworkRec) (historicalData : List HistEntry) : Option ThreatFinding :=
  if historicalData.length < 5 then none
  else
    let recentSignals := (historicalData.drop (historicalData.length - 10)).map (·.rssi)
    let signalVariation := listMaxOf recentSignals - listMinOf recentSignals
    if signalVariation > 20 then
      some { type := "signal_anomaly", severity := "medium",
             description := "Unusual signal strength fluctuations detected",
             details := "Signal variation of " ++ toString signalVariation ++
               "dBm may indicate deauth attacks or jamming" }
    else if network.seenCount > 100 then
      some { type := "high_frequency", severity := "medium",
             description := "Abnormally high detection frequency",
             details := "This network appears unusually often, may indicate probe flooding" }
    else none

/-- ThreatDetector.detectChannelThreats. -/
def detectChannelThreats (network : NetworkRec) (allNetworks : List NetworkRec) : Option ThreatFinding :=
  let sameChannelNetworks := allNetworks.filter fun n => n.channel == network.channel
  if sameChannelNetworks.length > 15 then
    some { type := "channel_congestion", severity := "low",
           description := "High network density on channel " ++ toString network.channel,
           details := toString sameChannelNetworks.length ++ " networks detected on same channel" }
  else none

/-- The suspiciousPrefixes table of ThreatDetector.analyzeMACAddress. -/
def suspiciousMacHeads : List String :=
  ["02:00:00", "AA:BB:CC", "00:11:22", "12:34:56"]

/-- ThreatDetector.analyzeMACAddress: substring(0, 8) of the bssid,
uppercased, tested against the fixed head list. -/
def analyzeMACAddress (bssid : String) : Option ThreatFinding :=
  if bssid.isEmpty then none
  else
    let macHead := jsToUpper (String.mk (bssid.data.take 8))
    if suspiciousMacHeads.any (fun p => listStartsWith macHead.data p.data) then
      some { type := "suspicious_mac", severity := "low",
             description := "Potentially spoofed MAC address detected",
             details := "MAC address pattern suggests possible device identity masking" }
    else none

/-- ThreatDetector.getRecommendation: a general template keyed by risk level
plus per-type specific tips with a generic fallback. -/
def getRecommendation (riskLevel : String) (threats : List ThreatFinding) : Recommendation :=
  let general :=
    if riskLevel == "critical" then
      "IMMEDIATE ACTION REQUIRED: Block this network and investigate immediately. High probability of malicious activity."
    else if riskLevel == "high" then
      "CAUTION: Avoid connecting to this network. Monitor closely and consider blocking."
    else if riskLevel == "medium" then
      "WARNING: Exercise caution. Verify network legitimacy before connecting."
    else if riskLevel == "low" then
      "INFO: Minor security concerns detected. Standard security practices recommended."
    else ""
  let specific := threats.foldl (fun acc t =>
    if t.type == "evil_twin" then
      acc ++ ["Verify with network administrator which is the legitimate network"]
    else if t.type == "open_network" then
      acc ++ ["Use VPN if connection is necessary"]
    else if t.type == "suspicious_ssid" then
      acc ++ ["Verify network legitimacy with venue staff"]
    else if t.type == "signal_anomaly" then
      acc ++ ["Monitor for deauth attacks or jamming attempts"]
    else acc) []
  { general := general,
    specific := if specific.length > 0 then specific
                else ["Follow standard WiFi security practices"] }

/-- Turn an optional finding into the list segment it contributes. -/
def optToList : Option ThreatFinding → List ThreatFinding
  | none => []
  | some t => [t]

/-- ThreatDetector.assessThreat: the six detectors in fixed order, each
pushing one finding and adding its fixed points when triggered; thresholds
70, 40, 20 give the risk level and isHarmful is harmScore at least 40. -/
def assessThreat (network : NetworkRec) (allNetworks : List NetworkRec)
    (historicalData : List HistEntry) : ThreatAssessment :=
  let t1 := checkSuspiciousSSID network.ssid
  let t2 := detectEvilTwin network allNetworks
  let t3 := checkOpenNetwork network
  let t4 := detectSignalAnomalies network historicalData
  let t5 := detectChannelThreats network allNetworks
  let t6 := analyzeMACAddress network.bssid
  let threats := optToList t1 ++ optToList t2 ++ optToList t3 ++
                 optToList t4 ++ optToList t5 ++ optToList t6
  let harmScore :=
    (if t1.isSome then 30 else 0) + (if t2.isSome then 50 else 0) +
    (if t3.isSome then 25 else 0) + (if t4.isSome then 35 else 0) +
    (if t5.isSome then 20 else 0) + (if t6.isSome then 15 else 0)
  let riskLevel :=
    if harmScore ≥ 70 then "critical"
    else if harmScore ≥ 40 then "high"
    else if harmScore ≥ 20 then "medium"
    else "low"
  { networkId := network.bssid,
    ssid := network.ssid,
    bssid := network.bssid,
    riskLevel := riskLevel,
    harmScore := harmScore,
    threats := threats,
    recommendation := getRecommendation riskLevel threats,
    isHarmful := decide (harmScore ≥ 40) }

/-- One observation report of an intake batch (POST /scan, one element of
the networks array); optional fields model possibly undefined values. -/
structure Report where
  ssid : Option String
  bssid : Option String
  rssi : Int
  channel : Int
  encType : Option EncType
deriving Repr, DecidableEq

/-- The per-threat item the scan route pushes into results.threats. -/
structure ThreatItem where
  ssid : String
  bssid : String
  riskLevel : String
  harmScore : Nat
  threats : List ThreatFinding
  recommendation : Recommendation
  isHarmful : Bool
deriving Repr, DecidableEq

/-- The evolving state of one POST /scan request: the store plus the
results accumulator of the route. -/
structure ScanState where
  store : List NetworkRec
  processed : Nat
  created : Nat
  updated : Nat
  threats : List ThreatItem
  errors : List String
deriving Repr, DecidableEq

/-- The per-field update the scan route applies to an existing record.  The
update object places the slice modifier inside the pushed history element
instead of under an each modifier, so the store applies no truncation: the
entry is appended and history grows without bound (the unknown dollar-key is
dropped by strict-mode casting). -/
def updateRec (old : NetworkRec) (r : Report) (dev : String) (now : Nat) : NetworkRec :=
  { old with
    ssid := jsOrStr r.ssid "Hidden Network",
    rssi := r.rssi,
    channel := r.channel,
    encType := r.encType.getD EncType.Unknown,
    lastSeen := now,
    deviceId := dev,
    seenCount := old.seenCount + 1,
    history := old.history ++ [{ rssi := r.rssi, timestamp := now }] }

/-- The document created when the key is absent, with the schema defaults
(status unknown, seenCount created at 1 by the increment, a one-entry
history). -/
def freshRec (key : String) (r : Report) (dev : String) (now : Nat) : NetworkRec :=
  { ssid := jsOrStr r.ssid "Hidden Network",
    bssid := key,
    rssi := r.rssi,
    channel := r.channel,
    encType := r.encType.getD EncType.Unknown,
    firstSeen := now,
    lastSeen := now,
    seenCount := 1,
    status := Status.unknown,
    history := [{ rssi := r.rssi, timestamp := now }],
    deviceId := dev }

/-- The upsert of the scan route (findOneAndUpdate with upsert and new):
update the record whose bssid equals the uppercased key, or insert a fresh
one with the schema defaults.  Returns the post-update document and the new
store. -/
def upsertNetwork (store : List NetworkRec) (key : String) (r : Report)
    (dev : String) (now : Nat) : NetworkRec × List NetworkRec :=
  match store.find? (fun n => n.bssid == key) with
  | some old =>
      (updateRec old r dev now,
        store.map fun n => if n.bssid == key then updateRec old r dev now else n)
  | none =>
      (freshRec key r dev now, store ++ [freshRec key r dev now])

/-- The threat item the route builds from the updated record and its
assessment. -/
def mkThreatItem (network : NetworkRec) (a : ThreatAssessment) : ThreatItem :=
  { ssid := network.ssid, bssid := network.bssid,
    riskLevel := a.riskLevel, harmScore := a.harmScore,
    threats := a.threats, recommendation := a.recommendation,
    isHarmful := a.isHarmful }

/-- The error string the route records for a report without a bssid. -/
def missingBssidMsg (ssid : Option String) : String :=
  "Missing BSSID for network: " ++ showJsOpt ssid

/-- The uppercased lookup key the scan route derives from a report. -/
def scanKey (r : Report) : String := jsToUpper (r.bssid.getD "")

/-- One iteration of the scan-route loop over a batch: reject a falsy bssid
as a per-item error; otherwise upsert, assess against the allNetworks
snapshot taken before the batch, auto-escalate a harmful unknown record to
suspicious immediately, and accumulate the counters. -/
def processReport (allNetworks : List NetworkRec) (dev : String) (now : Nat)
    (st : ScanState) (r : Report) : ScanState :=
  if jsFalsyStr r.bssid then
    { st with errors := st.errors ++ [missingBssidMsg r.ssid] }
  else
    let res := upsertNetwork st.store (scanKey r) r dev now
    let network := res.1
    let store1 := res.2
    let a := assessThreat network allNetworks network.history
    let store2 :=
      if a.isHarmful && network.status == Status.unknown then
        store1.map fun n =>
          if n.bssid == network.bssid then { n with status := Status.suspicious } else n
      else store1
    let threats1 :=
      if a.threats.length > 0 then st.threats ++ [mkThreatItem network a] else st.threats
    let counters :=
      if network.seenCount == 1 then (st.created + 1, st.updated)
      else (st.created, st.updated + 1)
    { store := store2,
      processed := st.processed + 1,
      created := counters.1,
      updated := counters.2,
      threats := threats1,
      errors := st.errors }

/-- The scan-route loop over the report list, with the pre-batch snapshot
allNetworks held fixed. -/
def scanLoop (allNetworks : List NetworkRec) (dev : String) (now : Nat)
    (st : ScanState) : List Report → ScanState
  | [] => st
  | r :: rest => scanLoop allNetworks dev now (processReport allNetworks dev now st r) rest

/-- The initial results accumulator of one scan request. -/
def initState (store : List NetworkRec) : ScanState :=
  { store := store, processed := 0, created := 0, updated := 0, threats := [], errors := [] }

/-- POST /scan: read the full record set once (the allNetworks snapshot),
then process the batch in order. -/
def processScan (store : List NetworkRec) (dev : String) (now : Nat)
    (reports : List Report) : ScanState :=
  scanLoop store dev now (initState store) reports

/-- Result of PATCH /networks/:id/status. -/
inductive PatchResult where
  | invalidStatus
  | notFound
  | ok (store : List NetworkRec) (network : NetworkRec)
deriving Repr, DecidableEq

/-- Parse a validated status string into the schema enum. -/
def statusFromString (s : String) : Status :=
  if s == "trusted" then Status.trusted
  else if s == "suspicious" then Status.suspicious
  else Status.unknown

/-- PATCH /networks/:id/status: reject a status outside the three listed
values, otherwise set it unconditionally on the addressed record (the record
id is modelled by the unique bssid). -/
def patchStatus (store : List NetworkRec) (id : String) (s : String) : PatchResult :=
  if !(["trusted", "unknown", "suspicious"].contains s) then PatchResult.invalidStatus
  else
    match store.find? (fun n => n.bssid == id) with
    | none => PatchResult.notFound
    | some old =>
        let upd : NetworkRec := { old with status := statusFromString s }
        PatchResult.ok (store.map fun n => if n.bssid == id then upd else n) upd

/-- Insert an assessment into a list sorted by descending harmScore, after
every element of equal or higher score: together with the left-to-right fold
this models the stable JavaScript sort with the comparator on harmScore. -/
def insertByHarm (a : ThreatAssessment) : List ThreatAssessment → List ThreatAssessment
  | [] => [a]
  | b :: rest =>
      if a.harmScore ≤ b.harmScore then b :: insertByHarm a rest
      else a :: b :: rest

/-- Stable sort of the threat list by descending harmScore. -/
def sortByHarm (l : List ThreatAssessment) : List ThreatAssessment :=
  l.foldl (fun acc a => insertByHarm a acc) []

/-- The summary object of GET /threats. -/
structure ThreatsSummary where
  critical : Nat
  high : Nat
  medium : Nat
  low : Nat
  harmful : Nat
deriving Repr, DecidableEq

/-- The response of GET /threats. -/
structure ThreatsResponse where
  totalNetworks : Nat
  threatsAnalyzed : Nat
  summary : ThreatsSummary
  threats : List ThreatAssessment
deriving Repr, DecidableEq

/-- The threats array GET /threats accumulates before sorting: every stored
record assessed against the full loaded set passing its history, kept when
it has a finding or a positive score. -/
def keptAssessments (store : List NetworkRec) : List ThreatAssessment :=
  (store.map fun n => assessThreat n store n.history).filter
    fun a => a.threats.length > 0 || a.harmScore > 0

/-- GET /threats, the sorted response built from the kept assessments. -/
def getThreats (store : List NetworkRec) : ThreatsResponse :=
  let sorted := sortByHarm (keptAssessments store)
  { totalNetworks := store.length,
    threatsAnalyzed := sorted.length,
    summary :=
      { critical := (sorted.filter fun t => t.riskLevel == "critical").length,
        high := (sorted.filter fun t => t.riskLevel == "high").length,
        medium := (sorted.filter fun t => t.riskLevel == "medium").length,
        low := (sorted.filter fun t => t.riskLevel == "low").length,
        harmful := (sorted.filter fun t => t.isHarmful).length },
    threats := sorted }

/-- Security ranking of the claim: the order Open below WEP below the WPA
family; Unknown is outside the order. -/
def encRank : EncType → Option Nat
  | EncType.Open => some 0
  | EncType.WEP => some 1
  | EncType.WPA => some 2
  | EncType.WPA2 => some 2
  | EncType.WPA3 => some 2
  | EncType.Unknown => none

/-- Strict comparison in the claimed security order. -/
def strictlyStronger (a b : EncType) : Bool :=
  match encRank a, encRank b with
  | some ra, some rb => rb < ra
  | _, _ => false

/-- The WPA2 OfficeNet record of the worked example in the specification. -/
def officeA : NetworkRec :=
  { ssid := "OfficeNet", bssid := "11:22:33:44:55:66", rssi := -50, channel := 6,
    encType := EncType.WPA2, firstSeen := 0, lastSeen := 0, seenCount := 1,
    status := Status.unknown, history := [], deviceId := "ESP8266_001" }

/-- The Open OfficeNet record of the worked example: same ssid, different
bssid, no encryption. -/
def officeB : NetworkRec :=
  { officeA with bssid := "11:22:33:44:55:67", encType := EncType.Open }

/-- The same trusted record, for the status-machine claims. -/
def trustedOffice : NetworkRec := { officeA with status := Status.trusted }

/-- Intake report producing officeA. -/
def repA : Report :=
  { ssid := some "OfficeNet", bssid := some "11:22:33:44:55:66", rssi := -50,
    channel := 6, encType := some EncType.WPA2 }

/-- Intake report producing officeB. -/
def repB : Report :=
  { repA with bssid := some "11:22:33:44:55:67", encType := some EncType.Open }

/-- A benign report, repeated to grow one record without triggering any
detector. -/
def repC : Report :=
  { ssid := some "A", bssid := some "AA:AA:AA:AA:AA:AA", rssi := -40,
    channel := 6, encType := some EncType.WPA2 }

/-- A report without a bssid, for the per-item validation claims. -/
def repBad : Report :=
  { ssid := some "X", bssid := none, rssi := -40, channel := 6,
    encType := some EncType.WPA2 }

/-- A harmful report for the trusted record: suspicious ssid plus open
network scores 55, above the harmful threshold. -/
def repHarm : Report :=
  { ssid := some "Free WiFi", bssid := some "11:22:33:44:55:66", rssi := -40,
    channel := 6, encType := some EncType.Open }

/-- The post-update document returned by the upsert of one report. -/
def upsertedRec (store : List NetworkRec) (r : Report) (dev : String) (now : Nat) : NetworkRec :=
  (upsertNetwork store (scanKey r) r dev now).1

/-- The status of the record stored under a given key. -/
def lookupStatus (store : List NetworkRec) (k : String) : Option Status :=
  (store.find? fun n => n.bssid == k).map (·.status)

/-- The error strings one report contributes to the batch error list. -/
def errDelta (r : Report) : List String :=
  if jsFalsyStr r.bssid then [missingBssidMsg r.ssid] else []

/-- The error strings of a whole batch, in report order. -/
def batchErrors : List Report → List String
  | [] => []
  | r :: rest => errDelta r ++ batchErrors rest

/-- All state components except the error list. -/
def stripErr (st : ScanState) : List NetworkRec × Nat × Nat × Nat × List ThreatItem :=
  (st.store, st.processed, st.created, st.updated, st.threats)

/-- A record with high signal variation and a high observation count, for the
signal-anomaly priority claims. -/
def sigNet : NetworkRec :=
  { officeA with ssid := "A", bssid := "AA:AA:AA:AA:AA:AA", seenCount := 200 }

/-- Six history entries whose last ten readings vary by 50 dBm. -/
def sigHist : List HistEntry :=
  [{ rssi := -30, timestamp := 0 }, { rssi := -80, timestamp := 1 },
   { rssi := -40, timestamp := 2 }, { rssi := -40, timestamp := 3 },
   { rssi := -40, timestamp := 4 }, { rssi := -40, timestamp := 5 }]

theorem updateRec_bssid (old : NetworkRec) (r : Report) (dev : String) (now : Nat) :
    (updateRec old r dev now).bssid = old.bssid := rfl

theorem freshRec_bssid (key : String) (r : Report) (dev : String) (now : Nat) :
    (freshRec key r dev now).bssid = key := rfl

/-- Unfolding equation of the upsert when the key is present. -/
theorem upsertNetwork_of_found {store : List NetworkRec} {key : String} {r : Report}
    {dev : String} {now : Nat} {old : NetworkRec}
    (hf : store.find? (fun n => n.bssid == key) = some old) :
    upsertNetwork store key r dev now =
      (updateRec old r dev now,
        store.map fun n => if n.bssid == key then updateRec old r dev now else n) := by
  unfold upsertNetwork
  rw [hf]

/-- Unfolding equation of the upsert when the key is absent. -/
theorem upsertNetwork_of_missing {store : List NetworkRec} {key : String} {r : Report}
    {dev : String} {now : Nat}
    (hf : store.find? (fun n => n.bssid == key) = none) :
    upsertNetwork store key r dev now =
      (freshRec key r dev now, store ++ [freshRec key r dev now]) := by
  unfold upsertNetwork
  rw [hf]

/-- A per-record map that leaves every bssid unchanged commutes with lookup
by bssid. -/
theorem find?_map_bssid (g : NetworkRec → NetworkRec)
    (hg : ∀ n, (g n).bssid = n.bssid) (k : String) :
    ∀ s : List NetworkRec,
      (s.map g).find? (fun n => n.bssid == k) = (s.find? fun n => n.bssid == k).map g := by
  intro s
  induction s with
  | nil => rfl
  | cons n t ih =>
    by_cases hb : (n.bssid == k) = true
    · have hgb : ((g n).bssid == k) = true := by rw [hg]; exact hb
      simp [List.find?_cons, hb, hgb]
    · have hb2 : (n.bssid == k) = false := by simpa using hb
      have hgb : ((g n).bssid == k) = false := by rw [hg]; exact hb2
      simp [List.find?_cons, hb2, hgb, ih]

/-- The replacement map of the update branch never changes a bssid. -/
theorem replace_preserves_bssid (old : NetworkRec) (r : Report) (dev : String) (now : Nat)
    (key : String) (hkey : old.bssid = key) :
    ∀ n : NetworkRec,
      ((fun n => if n.bssid == key then updateRec old r dev now else n) n).bssid = n.bssid := by
  intro n
  by_cases h : (n.bssid == key) = true
  · simp only [h, if_true]
    rw [updateRec_bssid, hkey]
    have := (beq_iff_eq).mp h
    exact this.symm
  · simp [h]

/-- The auto-escalation map of the intake never changes a bssid. -/
theorem statusMap_preserves_bssid (key : String) :
    ∀ n : NetworkRec,
      ((fun n => if n.bssid == key then { n with status := Status.suspicious } else n) n).bssid =
        n.bssid := by
  intro n
  by_cases h : (n.bssid == key) = true
  · simp [h]
  · simp [h]

/-- The upserted document carries the lookup key as its bssid. -/
theorem upsertedRec_bssid (store : List NetworkRec) (r : Report) (dev : String) (now : Nat) :
    (upsertedRec store r dev now).bssid = scanKey r := by
  unfold upsertedRec
  cases hf : store.find? (fun n => n.bssid == scanKey r) with
  | some old =>
    rw [upsertNetwork_of_found hf, updateRec_bssid]
    simpa using List.find?_some hf
  | none =>
    rw [upsertNetwork_of_missing hf]
    rfl

/-- Looking up the key after the upsert returns the upserted document. -/
theorem upsert_find_self (store : List NetworkRec) (r : Report) (dev : String) (now : Nat) :
    ((upsertNetwork store (scanKey r) r dev now).2).find? (fun n => n.bssid == scanKey r) =
      some (upsertedRec store r dev now) := by
  unfold upsertedRec
  cases hf : store.find? (fun n => n.bssid == scanKey r) with
  | some old =>
    rw [upsertNetwork_of_found hf]
    have hob : old.bssid = scanKey r := by simpa using List.find?_some hf
    rw [find?_map_bssid _ (replace_preserves_bssid old r dev now (scanKey r) hob) (scanKey r) store,
      hf]
    simp [hob]
  | none =>
    rw [upsertNetwork_of_missing hf, List.find?_append, hf]
    simp [List.find?, freshRec]

/-- Looking up a different key is unaffected by the upsert. -/
theorem upsert_find_other (store : List NetworkRec) (r : Report) (dev : String) (now : Nat)
    (k : String) (hk : k ≠ scanKey r) :
    ((upsertNetwork store (scanKey r) r dev now).2).find? (fun n => n.bssid == k) =
      store.find? (fun n => n.bssid == k) := by
  cases hf : store.find? (fun n => n.bssid == scanKey r) with
  | some old =>
    rw [upsertNetwork_of_found hf]
    have hob : old.bssid = scanKey r := by simpa using List.find?_some hf
    rw [find?_map_bssid _ (replace_preserves_bssid old r dev now (scanKey r) hob) k store]
    cases hm : store.find? (fun n => n.bssid == k) with
    | none => rfl
    | some m =>
      have hmb : m.bssid = k := by simpa using List.find?_some hm
      have hms : (m.bssid == scanKey r) = false := by
        refine beq_eq_false_iff_ne.mpr ?_
        rw [hmb]; exact hk
      simp [hms, hmb]
      intro h
      exact absurd h hk
  | none =>
    rw [upsertNetwork_of_missing hf, List.find?_append]
    have hfs : ((freshRec (scanKey r) r dev now).bssid == k) = false := by
      refine beq_eq_false_iff_ne.mpr ?_
      rw [freshRec_bssid]
      exact fun h => hk h.symm
    simp [List.find?, hfs]

/-- After a valid report is processed, the record under its key holds the
upserted document, escalated to suspicious exactly when the assessment is
harmful and the upserted status was unknown. -/
theorem processReport_status_key (allNetworks : List NetworkRec) (dev : String) (now : Nat)
    (st : ScanState) (r : Report) (h : jsFalsyStr r.bssid = false) :
    lookupStatus (processReport allNetworks dev now st r).store (scanKey r) =
      some (if (assessThreat (upsertedRec st.store r dev now) allNetworks
                  (upsertedRec st.store r dev now).history).isHarmful
               && ((upsertedRec st.store r dev now).status == Status.unknown)
            then Status.suspicious
            else (upsertedRec st.store r dev now).status) := by
  have hub : (upsertedRec st.store r dev now).bssid = scanKey r :=
    upsertedRec_bssid st.store r dev now
  simp only [processReport, h, Bool.false_eq_true, if_false]
  by_cases hc : ((assessThreat (upsertedRec st.store r dev now) allNetworks
      (upsertedRec st.store r dev now).history).isHarmful
      && ((upsertedRec st.store r dev now).status == Status.unknown)) = true
  · rw [show ((upsertNetwork st.store (scanKey r) r dev now).1) = upsertedRec st.store r dev now
      from rfl]
    simp only [hc, if_true, lookupStatus]
    rw [hub]
    rw [find?_map_bssid _ (statusMap_preserves_bssid (scanKey r)) (scanKey r) _]
    rw [upsert_find_self]
    simp [hub, hc]
  · rw [show ((upsertNetwork st.store (scanKey r) r dev now).1) = upsertedRec st.store r dev now
      from rfl]
    simp only [hc, if_false, lookupStatus, Bool.false_eq_true]
    rw [upsert_find_self]
    simp [hc]

/-- Processing a valid report leaves every record under a different key
untouched. -/
theorem processReport_find_other (allNetworks : List NetworkRec) (dev : String) (now : Nat)
    (st : ScanState) (r : Report) (k : String) (h : jsFalsyStr r.bssid = false)
    (hk : k ≠ scanKey r) :
    (processReport allNetworks dev now st r).store.find? (fun n => n.bssid == k) =
      st.store.find? (fun n => n.bssid == k) := by
  have hub : (upsertedRec st.store r dev now).bssid = scanKey r :=
    upsertedRec_bssid st.store r dev now
  simp only [processReport, h, Bool.false_eq_true, if_false]
  by_cases hc : ((assessThreat ((upsertNetwork st.store (scanKey r) r dev now).1) allNetworks
      ((upsertNetwork st.store (scanKey r) r dev now).1).history).isHarmful
      && (((upsertNetwork st.store (scanKey r) r dev now).1).status == Status.unknown)) = true
  · simp only [hc, if_true]
    unfold upsertedRec at hub
    rw [hub]
    rw [find?_map_bssid _ (statusMap_preserves_bssid (scanKey r)) k _]
    rw [upsert_find_other st.store r dev now k hk]
    cases hm : st.store.find? (fun n => n.bssid == k) with
    | none => rfl
    | some m =>
      have hmb : m.bssid = k := by simpa using List.find?_some hm
      have hms : (m.bssid == scanKey r) = false := by
        refine beq_eq_false_iff_ne.mpr ?_
        rw [hmb]; exact hk
      simp [hms, hmb]
      intro hcontra
      exact absurd hcontra hk
  · simp only [hc, if_false, Bool.false_eq_true]
    exact upsert_find_other st.store r dev now k hk

/-- Processing a report never writes unknown over a settled status: a record
whose status differs from unknown keeps its exact status. -/
theorem processReport_status_preserved (allNetworks : List NetworkRec) (dev : String) (now : Nat)
    (st : ScanState) (r : Report) (k : String) (s0 : Status)
    (hl : lookupStatus st.store k = some s0) (hs : s0 ≠ Status.unknown) :
    lookupStatus (processReport allNetworks dev now st r).store k = some s0 := by
  by_cases hfal : jsFalsyStr r.bssid = true
  · simp only [processReport, hfal, if_true]
    exact hl
  · have hval : jsFalsyStr r.bssid = false := by simpa using hfal
    by_cases hk : k = scanKey r
    · subst hk
      rw [processReport_status_key allNetworks dev now st r hval]
      obtain ⟨old, hfo, hos⟩ : ∃ old,
          st.store.find? (fun n => n.bssid == scanKey r) = some old ∧ old.status = s0 := by
        unfold lookupStatus at hl
        cases hfo : st.store.find? (fun n => n.bssid == scanKey r) with
        | none => rw [hfo] at hl; simp at hl
        | some old => rw [hfo] at hl; simp at hl; exact ⟨old, rfl, hl⟩
      have hup : upsertedRec st.store r dev now = updateRec old r dev now := by
        unfold upsertedRec
        rw [upsertNetwork_of_found hfo]
      have hust : (upsertedRec st.store r dev now).status = s0 := by
        rw [hup]
        show old.status = s0
        exact hos
      have hcond : ((upsertedRec st.store r dev now).status == Status.unknown) = false := by
        rw [hust]
        exact beq_eq_false_iff_ne.mpr hs
      rw [hcond]
      simp [hust]
    · unfold lookupStatus at hl ⊢
      rw [processReport_find_other allNetworks dev now st r k hval hk]
      exact hl

/-- Status preservation extends over the whole batch loop. -/
theorem scanLoop_status_preserved (allNetworks : List NetworkRec) (dev : String) (now : Nat) :
    ∀ (rs : List Report) (st : ScanState) (k : String) (s0 : Status),
      lookupStatus st.store k = some s0 → s0 ≠ Status.unknown →
      lookupStatus (scanLoop allNetworks dev now st rs).store k = some s0 := by
  intro rs
  induction rs with
  | nil => intro st k s0 hl _; exact hl
  | cons r rest ih =>
    intro st k s0 hl hs
    exact ih (processReport allNetworks dev now st r) k s0
      (processReport_status_preserved allNetworks dev now st r k s0 hl hs) hs

/-- The loop over a concatenation is the composition of the loops. -/
theorem scanLoop_append (allNetworks : List NetworkRec) (dev : String) (now : Nat) :
    ∀ (xs ys : List Report) (st : ScanState),
      scanLoop allNetworks dev now st (xs ++ ys) =
        scanLoop allNetworks dev now (scanLoop allNetworks dev now st xs) ys := by
  intro xs
  induction xs with
  | nil => intro ys st; rfl
  | cons r rest ih =>
    intro ys st
    simp only [List.cons_append, scanLoop]
    exact ih ys (processReport allNetworks dev now st r)

theorem batchErrors_append (xs ys : List Report) :
    batchErrors (xs ++ ys) = batchErrors xs ++ batchErrors ys := by
  induction xs with
  | nil => rfl
  | cons r rest ih => simp [batchErrors, ih]

/-- Each loop iteration appends exactly the error strings of its report. -/
theorem processReport_errors (allNetworks : List NetworkRec) (dev : String) (now : Nat)
    (st : ScanState) (r : Report) :
    (processReport allNetworks dev now st r).errors = st.errors ++ errDelta r := by
  by_cases h : jsFalsyStr r.bssid = true
  · simp [processReport, errDelta, h]
  · have h2 : jsFalsyStr r.bssid = false := by simpa using h
    simp [processReport, errDelta, h2]

/-- The error list after the loop is the initial list plus the batch errors,
independently of the store. -/
theorem scanLoop_errors (allNetworks : List NetworkRec) (dev : String) (now : Nat) :
    ∀ (rs : List Report) (st : ScanState),
      (scanLoop allNetworks dev now st rs).errors = st.errors ++ batchErrors rs := by
  intro rs
  induction rs with
  | nil => intro st; simp [scanLoop, batchErrors]
  | cons r rest ih =>
    intro st
    simp only [scanLoop, batchErrors]
    rw [ih (processReport allNetworks dev now st r),
      processReport_errors allNetworks dev now st r, List.append_assoc]

/-- One loop iteration reads nothing from the error list: states agreeing
outside it stay in agreement. -/
theorem processReport_stripErr (allNetworks : List NetworkRec) (dev : String) (now : Nat)
    (r : Report) (t u : ScanState) (h : stripErr t = stripErr u) :
    stripErr (processReport allNetworks dev now t r) =
      stripErr (processReport allNetworks dev now u r) := by
  simp only [stripErr, Prod.mk.injEq] at h
  obtain ⟨h1, h2, h3, h4, h5⟩ := h
  by_cases hf : jsFalsyStr r.bssid = true
  · simp [processReport, hf, stripErr, h1, h2, h3, h4, h5]
  · have h0 : jsFalsyStr r.bssid = false := by simpa using hf
    simp [processReport, h0, stripErr, h1, h2, h3, h4, h5]

/-- The errors-independence of one iteration extends over the loop. -/
theorem scanLoop_stripErr (allNetworks : List NetworkRec) (dev : String) (now : Nat) :
    ∀ (rs : List Report) (t u : ScanState), stripErr t = stripErr u →
      stripErr (scanLoop allNetworks dev now t rs) =
        stripErr (scanLoop allNetworks dev now u rs) := by
  intro rs
  induction rs with
  | nil => intro t u h; exact h
  | cons r rest ih =>
    intro t u h
    exact ih _ _ (processReport_stripErr allNetworks dev now r t u h)

theorem insertByHarm_perm (a : ThreatAssessment) (l : List ThreatAssessment) :
    (insertByHarm a l).Perm (a :: l) := by
  induction l with
  | nil => exact List.Perm.refl _
  | cons b rest ih =>
    by_cases h : a.harmScore ≤ b.harmScore
    · simp only [insertByHarm, h, if_true]
      exact (ih.cons b).trans (List.Perm.swap a b rest)
    · simp only [insertByHarm, h, if_false]
      exact List.Perm.refl _

theorem foldl_insertByHarm_perm :
    ∀ (l acc : List ThreatAssessment),
      (l.foldl (fun acc a => insertByHarm a acc) acc).Perm (acc ++ l) := by
  intro l
  induction l with
  | nil => intro acc; simp
  | cons a l ih =>
    intro acc
    simp only [List.foldl_cons]
    have h1 := ih (insertByHarm a acc)
    have h2 : (insertByHarm a acc ++ l).Perm ((a :: acc) ++ l) :=
      (insertByHarm_perm a acc).append_right l
    have h3 : ((a :: acc) ++ l).Perm (acc ++ a :: l) := List.perm_middle.symm
    exact h1.trans (h2.trans h3)

theorem sortByHarm_perm (l : List ThreatAssessment) : (sortByHarm l).Perm l := by
  have h := foldl_insertByHarm_perm l []
  simpa [sortByHarm] using h

theorem insertByHarm_sorted (a : ThreatAssessment) :
    ∀ l : List ThreatAssessment,
      l.Pairwise (fun x y => y.harmScore ≤ x.harmScore) →
      (insertByHarm a l).Pairwise (fun x y => y.harmScore ≤ x.harmScore) := by
  intro l
  induction l with
  | nil => intro _; simp [insertByHarm]
  | cons b rest ih =>
    intro h
    rw [List.pairwise_cons] at h
    obtain ⟨hb, hrest⟩ := h
    by_cases hab : a.harmScore ≤ b.harmScore
    · simp only [insertByHarm, hab, if_true]
      rw [List.pairwise_cons]
      refine ⟨?_, ih hrest⟩
      intro x hx
      rcases List.mem_cons.mp ((insertByHarm_perm a rest).mem_iff.mp hx) with rfl | hx2
      · exact hab
      · exact hb x hx2
    · have hba : b.harmScore ≤ a.harmScore := le_of_not_le hab
      simp only [insertByHarm, hab, if_false]
      rw [List.pairwise_cons]
      refine ⟨?_, List.pairwise_cons.mpr ⟨hb, hrest⟩⟩
      intro x hx
      rcases List.mem_cons.mp hx with rfl | hx2
      · exact hba
      · exact le_trans (hb x hx2) hba

theorem foldl_insertByHarm_sorted :
    ∀ (l acc : List ThreatAssessment),
      acc.Pairwise (fun x y => y.harmScore ≤ x.harmScore) →
      (l.foldl (fun acc a => insertByHarm a acc) acc).Pairwise
        (fun x y => y.harmScore ≤ x.harmScore) := by
  intro l
  induction l with
  | nil => intro acc h; exact h
  | cons a l ih =>
    intro acc h
    simp only [List.foldl_cons]
    exact ih _ (insertByHarm_sorted a acc h)

theorem sortByHarm_sorted (l : List ThreatAssessment) :
    (sortByHarm l).Pairwise (fun x y => y.harmScore ≤ x.harmScore) :=
  foldl_insertByHarm_sorted l [] (by simp)

theorem insertByHarm_filter_ne (a : ThreatAssessment) (s : Nat) (ha : a.harmScore ≠ s) :
    ∀ l : List ThreatAssessment,
      (insertByHarm a l).filter (fun x => x.harmScore == s) =
        l.filter (fun x => x.harmScore == s) := by
  intro l
  induction l with
  | nil => simp [insertByHarm, List.filter_cons, beq_iff_eq, ha]
  | cons b rest ih =>
    by_cases hab : a.harmScore ≤ b.harmScore
    · simp only [insertByHarm, hab, if_true, List.filter_cons]
      rw [ih]
    · simp only [insertByHarm, hab, if_false, List.filter_cons]
      have has : (a.harmScore == s) = false := beq_eq_false_iff_ne.mpr ha
      simp [has]

theorem insertByHarm_filter_eq (a : ThreatAssessment) (s : Nat) (ha : a.harmScore = s) :
    ∀ l : List ThreatAssessment,
      l.Pairwise (fun x y => y.harmScore ≤ x.harmScore) →
      (insertByHarm a l).filter (fun x => x.harmScore == s) =
        l.filter (fun x => x.harmScore == s) ++ [a] := by
  intro l
  induction l with
  | nil => simp [insertByHarm, List.filter_cons, beq_iff_eq, ha]
  | cons b rest ih =>
    intro h
    rw [List.pairwise_cons] at h
    obtain ⟨hb, hrest⟩ := h
    by_cases hab : a.harmScore ≤ b.harmScore
    · simp only [insertByHarm, hab, if_true, List.filter_cons]
      rw [ih hrest]
      by_cases hbs : b.harmScore = s
      · have : (b.harmScore == s) = true := beq_iff_eq.mpr hbs
        simp [this]
      · have : (b.harmScore == s) = false := beq_eq_false_iff_ne.mpr hbs
        simp [this]
    · have hba : b.harmScore < a.harmScore := Nat.lt_of_not_le hab
      have hnil : (b :: rest).filter (fun x => x.harmScore == s) = [] := by
        rw [List.filter_eq_nil_iff]
        intro x hx
        rcases List.mem_cons.mp hx with rfl | hx2
        · simp only [beq_iff_eq]
          omega
        · have hxb := hb x hx2
          simp only [beq_iff_eq]
          omega
      have hstep : insertByHarm a (b :: rest) = a :: b :: rest := by
        simp only [insertByHarm, hab, if_false]
      have has : (a.harmScore == s) = true := beq_iff_eq.mpr ha
      rw [hstep, List.filter_cons, has, hnil]
      simp

theorem foldl_insertByHarm_filter (s : Nat) :
    ∀ (l acc : List ThreatAssessment),
      acc.Pairwise (fun x y => y.harmScore ≤ x.harmScore) →
      (l.foldl (fun acc a => insertByHarm a acc) acc).filter (fun x => x.harmScore == s) =
        acc.filter (fun x => x.harmScore == s) ++ l.filter (fun x => x.harmScore == s) := by
  intro l
  induction l with
  | nil => intro acc _; simp
  | cons a l ih =>
    intro acc hacc
    simp only [List.foldl_cons]
    rw [ih _ (insertByHarm_sorted a acc hacc)]
    by_cases has : a.harmScore = s
    · rw [insertByHarm_filter_eq a s has acc hacc]
      have hc : (a.harmScore == s) = true := beq_iff_eq.mpr has
      simp [List.filter_cons, hc, List.append_assoc]
    · rw [insertByHarm_filter_ne a s has acc]
      have hc : (a.harmScore == s) = false := beq_eq_false_iff_ne.mpr has
      simp [List.filter_cons, hc]

/-- The stable sort preserves, for every score, the exact subsequence of
assessments carrying that score. -/
theorem sortByHarm_filter (l : List ThreatAssessment) (s : Nat) :
    (sortByHarm l).filter (fun x => x.harmScore == s) =
      l.filter (fun x => x.harmScore == s) := by
  have h := foldl_insertByHarm_filter s l [] (by simp)
  simpa [sortByHarm] using h

theorem foldl_max_init_le : ∀ (xs : List Int) (a : Int), a ≤ xs.foldl max a := by
  intro xs
  induction xs with
  | nil => intro a; exact le_refl a
  | cons x xs ih => intro a; exact le_trans (le_max_left a x) (ih (max a x))

theorem foldl_max_mem : ∀ (xs : List Int) (a : Int), xs.foldl max a = a ∨ xs.foldl max a ∈ xs := by
  intro xs
  induction xs with
  | nil => intro a; left; rfl
  | cons x xs ih =>
    intro a
    rcases ih (max a x) with h | h
    · rcases max_choice a x with hm | hm
      · left; rw [List.foldl_cons, h, hm]
      · right; rw [List.foldl_cons, h, hm]; exact List.mem_cons_self x xs
    · right; exact List.mem_cons_of_mem x h

theorem le_foldl_max : ∀ (xs : List Int) (a b : Int), b ∈ xs → b ≤ xs.foldl max a := by
  intro xs
  induction xs with
  | nil => intro a b h; cases h
  | cons x xs ih =>
    intro a b h
    rcases List.mem_cons.mp h with rfl | h2
    · exact le_trans (le_max_right a b) (foldl_max_init_le xs (max a b))
    · exact ih (max a x) b h2

theorem foldl_min_init_le : ∀ (xs : List Int) (a : Int), xs.foldl min a ≤ a := by
  intro xs
  induction xs with
  | nil => intro a; exact le_refl a
  | cons x xs ih => intro a; exact le_trans (ih (min a x)) (min_le_left a x)

theorem foldl_min_mem : ∀ (xs : List Int) (a : Int), xs.foldl min a = a ∨ xs.foldl min a ∈ xs := by
  intro xs
  induction xs with
  | nil => intro a; left; rfl
  | cons x xs ih =>
    intro a
    rcases ih (min a x) with h | h
    · rcases min_choice a x with hm | hm
      · left; rw [List.foldl_cons, h, hm]
      · right; rw [List.foldl_cons, h, hm]; exact List.mem_cons_self x xs
    · right; exact List.mem_cons_of_mem x h

theorem foldl_min_le : ∀ (xs : List Int) (a b : Int), b ∈ xs → xs.foldl min a ≤ b := by
  intro xs
  induction xs with
  | nil => intro a b h; cases h
  | cons x xs ih =>
    intro a b h
    rcases List.mem_cons.mp h with rfl | h2
    · exact le_trans (foldl_min_init_le xs (min a b)) (min_le_right a b)
    · exact ih (min a x) b h2

theorem listMaxOf_mem {l : List Int} (h : l ≠ []) : listMaxOf l ∈ l := by
  cases l with
  | nil => exact absurd rfl h
  | cons x xs =>
    rcases foldl_max_mem xs x with h2 | h2
    · rw [listMaxOf, h2]; exact List.mem_cons_self x xs
    · rw [listMaxOf]; exact List.mem_cons_of_mem x h2

theorem le_listMaxOf {l : List Int} {x : Int} (h : x ∈ l) : x ≤ listMaxOf l := by
  cases l with
  | nil => cases h
  | cons y ys =>
    rcases List.mem_cons.mp h with rfl | h2
    · exact foldl_max_init_le ys x
    · exact le_foldl_max ys y x h2

theorem listMinOf_mem {l : List Int} (h : l ≠ []) : listMinOf l ∈ l := by
  cases l with
  | nil => exact absurd rfl h
  | cons x xs =>
    rcases foldl_min_mem xs x with h2 | h2
    · rw [listMinOf, h2]; exact List.mem_cons_self x xs
    · rw [listMinOf]; exact List.mem_cons_of_mem x h2

theorem listMinOf_le {l : List Int} {x : Int} (h : x ∈ l) : listMinOf l ≤ x := by
  cases l with
  | nil => cases h
  | cons y ys =>
    rcases List.mem_cons.mp h with rfl | h2
    · exact foldl_min_init_le ys x
    · exact foldl_min_le ys y x h2

theorem cond_iff_stronger :
    ∀ tenc e : EncType, tenc ≠ EncType.Open →
      (((tenc == EncType.Open && e != EncType.Open) ||
        (tenc == EncType.WEP && [EncType.WPA, EncType.WPA2, EncType.WPA3].contains e)) =
        strictlyStronger e tenc) := by
  intro tenc e ht
  cases tenc <;> cases e <;> first | rfl | exact absurd rfl ht

theorem evilCond_eq (net : NetworkRec) (all : List NetworkRec) :
    ((all.any fun n => (n.ssid == net.ssid && n.bssid != net.bssid) &&
        ((net.encType == EncType.Open && n.encType != EncType.Open) ||
          (net.encType == EncType.WEP &&
            [EncType.WPA, EncType.WPA2, EncType.WPA3].contains n.encType))) ||
      (net.encType == EncType.Open)) =
    ((net.encType == EncType.Open) ||
      (all.any fun n => (n.ssid == net.ssid && n.bssid != net.bssid) &&
        strictlyStronger n.encType net.encType)) := by
  by_cases ho : net.encType = EncType.Open
  · have h1 : (net.encType == EncType.Open) = true := beq_iff_eq.mpr ho
    simp [h1]
  · have h1 : (net.encType == EncType.Open) = false := beq_eq_false_iff_ne.mpr ho

    have hfun : (fun n : NetworkRec => (n.ssid == net.ssid && n.bssid != net.bssid) &&
        ((net.encType == EncType.Open && n.encType != EncType.Open) ||
          (net.encType == EncType.WEP &&
            [EncType.WPA, EncType.WPA2, EncType.WPA3].contains n.encType))) =
        (fun n : NetworkRec => (n.ssid == net.ssid && n.bssid != net.bssid) &&
          strictlyStronger n.encType net.encType) := by
      funext n
      rw [cond_iff_stronger net.encType n.encType ho]
    rw [hfun]
    exact Bool.or_comm _ _

theorem detectEvilTwin_isSome (net : NetworkRec) (all : List NetworkRec) :
    (detectEvilTwin net all).isSome =
      ((all.any fun n => n.ssid == net.ssid && n.bssid != net.bssid) &&
        ((net.encType == EncType.Open) ||
          (all.any fun n => (n.ssid == net.ssid && n.bssid != net.bssid) &&
            strictlyStronger n.encType net.encType))) := by
  unfold detectEvilTwin
  by_cases hl : (all.filter fun n => n.ssid == net.ssid && n.bssid != net.bssid).length > 0
  · rw [if_pos hl]
    have hany : (all.any fun n => n.ssid == net.ssid && n.bssid != net.bssid) = true := by
      rw [List.any_eq_true]
      have hne : (all.filter fun n => n.ssid == net.ssid && n.bssid != net.bssid) ≠ [] :=
        List.length_pos.mp hl
      obtain ⟨x, hx⟩ := List.exists_mem_of_ne_nil _ hne
      have hm := List.mem_filter.mp hx
      exact ⟨x, hm.1, hm.2⟩
    rw [hany, Bool.true_and, ← evilCond_eq net all]
    by_cases hw : (((all.filter fun n => n.ssid == net.ssid && n.bssid != net.bssid).any fun n =>
        (net.encType == EncType.Open && n.encType != EncType.Open) ||
          (net.encType == EncType.WEP &&
            [EncType.WPA, EncType.WPA2, EncType.WPA3].contains n.encType)) ||
        (net.encType == EncType.Open)) = true
    · rw [if_pos hw]
      rw [List.any_filter] at hw
      rw [hw]
      rfl
    · rw [if_neg hw]
      have hw2 : (((all.filter fun n => n.ssid == net.ssid && n.bssid != net.bssid).any fun n =>
          (net.encType == EncType.Open && n.encType != EncType.Open) ||
            (net.encType == EncType.WEP &&
              [EncType.WPA, EncType.WPA2, EncType.WPA3].contains n.encType)) ||
          (net.encType == EncType.Open)) = false := by simpa using hw
      rw [List.any_filter] at hw2
      rw [hw2]
      rfl
  · rw [if_neg hl]
    have hany : (all.any fun n => n.ssid == net.ssid && n.bssid != net.bssid) = false := by
      by_contra h
      have h2 : (all.any fun n => n.ssid == net.ssid && n.bssid != net.bssid) = true := by
        simpa using h
      rw [List.any_eq_true] at h2
      obtain ⟨x, hx, hpx⟩ := h2
      have hmem : x ∈ all.filter fun n => n.ssid == net.ssid && n.bssid != net.bssid :=
        List.mem_filter.mpr ⟨hx, hpx⟩
      exact hl (List.length_pos.mpr (List.ne_nil_of_mem hmem))
    rw [hany, Bool.false_and]
    rfl

theorem evilTwin_iff_aux (net : NetworkRec) (all : List NetworkRec) :
    (detectEvilTwin net all).isSome = true ↔
      ((∃ n ∈ all, n.ssid = net.ssid ∧ n.bssid ≠ net.bssid) ∧
        (net.encType = EncType.Open ∨
          ∃ n ∈ all, (n.ssid = net.ssid ∧ n.bssid ≠ net.bssid) ∧
            strictlyStronger n.encType net.encType = true)) := by
  rw [detectEvilTwin_isSome]
  simp [List.any_eq_true, Bool.and_eq_true, Bool.or_eq_true, beq_iff_eq, bne_iff_ne]

theorem evilTwin_unique_aux (net : NetworkRec) (all : List NetworkRec)
    (h : ∀ n ∈ all, n.ssid = net.ssid → n.bssid = net.bssid) :
    detectEvilTwin net all = none := by
  have h2 : (detectEvilTwin net all).isSome = false := by
    rw [detectEvilTwin_isSome]
    have hany : (all.any fun n => n.ssid == net.ssid && n.bssid != net.bssid) = false := by
      rw [← Bool.not_eq_true, List.any_eq_true]
      rintro ⟨x, hx, hpx⟩
      rw [Bool.and_eq_true, beq_iff_eq, bne_iff_ne] at hpx
      exact hpx.2 (h x hx hpx.1)
    rw [hany, Bool.false_and]
  exact Option.not_isSome_iff_eq_none.mp (by rw [h2]; exact Bool.false_ne_true)

/-- The risk-level classification of a score, spelled out threshold by
threshold. -/
theorem riskCases (s : Nat) :
    ((if s ≥ 70 then "critical" else if s ≥ 40 then "high"
        else if s ≥ 20 then "medium" else "low") = "critical" ↔ 70 ≤ s) ∧
    ((if s ≥ 70 then "critical" else if s ≥ 40 then "high"
        else if s ≥ 20 then "medium" else "low") = "high" ↔ 40 ≤ s ∧ s < 70) ∧
    ((if s ≥ 70 then "critical" else if s ≥ 40 then "high"
        else if s ≥ 20 then "medium" else "low") = "medium" ↔ 20 ≤ s ∧ s < 40) ∧
    ((if s ≥ 70 then "critical" else if s ≥ 40 then "high"
        else if s ≥ 20 then "medium" else "low") = "low" ↔ s < 20) ∧
    ((decide (s ≥ 40) : Bool) = true ↔ 40 ≤ s) := by
  by_cases h1 : s ≥ 70 <;> by_cases h2 : s ≥ 40 <;> by_cases h3 : s ≥ 20 <;>
    simp [h1, h2, h3] <;> omega

/-- Processing one valid report appends to the batch threat list exactly the
item built from the upserted record and its assessment against the snapshot
argument. -/
theorem processReport_threats (allNetworks : List NetworkRec) (dev : String) (now : Nat)
    (st : ScanState) (r : Report) (h : jsFalsyStr r.bssid = false) :
    (processReport allNetworks dev now st r).threats =
      st.threats ++
        (if (assessThreat (upsertedRec st.store r dev now) allNetworks
              (upsertedRec st.store r dev now).history).threats.length > 0
         then [mkThreatItem (upsertedRec st.store r dev now)
                (assessThreat (upsertedRec st.store r dev now) allNetworks
                  (upsertedRec st.store r dev now).history)]
         else []) := by
  simp only [processReport, h, Bool.false_eq_true, if_false]
  unfold upsertedRec
  by_cases hc : (assessThreat ((upsertNetwork st.store (scanKey r) r dev now).1) allNetworks
      ((upsertNetwork st.store (scanKey r) r dev now).1).history).threats.length > 0
  · simp [hc]
  · simp [hc]

set_option maxRecDepth 100000 in
/-- C1: the claim says history is capped at the 20 most recent entries with
the oldest evicted, and the code comment agrees; but the update places the
slice modifier inside the pushed element instead of under an each modifier,
so the store never truncates.  Evaluating the intake on 21 observations of
one bssid yields a history of length 21 (seenCount 21), violating the cap
while confirming the observation-count increment. -/
theorem spec_C1_overflow :
    (processScan [] "d" 0 (List.replicate 21 repC)).store.map
      (fun n => (n.history.length, n.seenCount)) = [(21, 21)] := by
  decide

/-- C2 counterexample: on an empty store and the batch of the two OfficeNet
reports, the recorded assessment of the Open record scores 25 (the snapshot
taken before the batch is empty, so no evil twin is seen), while the Engine
evaluated against the record set including the updates scores 75 — the
pipeline does not assess against the set including the update. -/
theorem spec_C2_counterexample :
    (processScan [] "d" 0 [repA, repB]).threats.map (·.harmScore) = [25] ∧
    (processScan [] "d" 0 [repA, repB]).store.map
      (fun n => (assessThreat n (processScan [] "d" 0 [repA, repB]).store n.history).harmScore) =
      [0, 75] := by
  constructor
  · decide
  · decide

/-- C2 amended: for every report of a batch, the Intake Pipeline evaluates
the Engine against the snapshot of the record set read once before the
batch began (not including this or any same-batch update), passing the
just-upserted record and its updated history. -/
theorem spec_C2 (store : List NetworkRec) (dev : String) (now : Nat) (rs : List Report)
    (r : Report) (h : jsFalsyStr r.bssid = false) :
    (processScan store dev now (rs ++ [r])).threats =
      (processScan store dev now rs).threats ++
        (if (assessThreat (upsertedRec (processScan store dev now rs).store r dev now) store
              (upsertedRec (processScan store dev now rs).store r dev now).history).threats.length > 0
         then [mkThreatItem (upsertedRec (processScan store dev now rs).store r dev now)
                (assessThreat (upsertedRec (processScan store dev now rs).store r dev now) store
                  (upsertedRec (processScan store dev now rs).store r dev now).history)]
         else []) := by
  unfold processScan
  rw [scanLoop_append]
  exact processReport_threats store dev now (scanLoop store dev now (initState store) rs) r h

/-- C2 witness: the amended snapshot semantics evaluated on the concrete
two-report OfficeNet batch. -/
theorem spec_C2_witness :
    jsFalsyStr repB.bssid = false ∧
    (processScan [] "d" 0 ([repA] ++ [repB])).threats =
      (processScan [] "d" 0 [repA]).threats ++
        (if (assessThreat (upsertedRec (processScan [] "d" 0 [repA]).store repB "d" 0) []
              (upsertedRec (processScan [] "d" 0 [repA]).store repB "d" 0).history).threats.length > 0
         then [mkThreatItem (upsertedRec (processScan [] "d" 0 [repA]).store repB "d" 0)
                (assessThreat (upsertedRec (processScan [] "d" 0 [repA]).store repB "d" 0) []
                  (upsertedRec (processScan [] "d" 0 [repA]).store repB "d" 0).history)]
         else []) :=
  ⟨rfl, spec_C2 [] "d" 0 [repA] repB rfl⟩

/-- C3: the evil-twin detector fires exactly when some other record shares
the ssid under a different bssid and the target is Open or some such sibling
is strictly stronger in the order Open below WEP below the WPA family; it
never fires when the ssid is unique; and on exactly the two OfficeNet
example records the Open one scores 75 (evil twin plus open network,
critical, harmful) while the WPA2 one scores 0 (low, not harmful). -/
theorem spec_C3 (net : NetworkRec) (all : List NetworkRec) :
    ((detectEvilTwin net all).isSome = true ↔
      ((∃ n ∈ all, n.ssid = net.ssid ∧ n.bssid ≠ net.bssid) ∧
        (net.encType = EncType.Open ∨
          ∃ n ∈ all, (n.ssid = net.ssid ∧ n.bssid ≠ net.bssid) ∧
            strictlyStronger n.encType net.encType = true))) ∧
    ((∀ n ∈ all, n.ssid = net.ssid → n.bssid = net.bssid) → detectEvilTwin net all = none) ∧
    (assessThreat officeB [officeA, officeB] officeB.history).harmScore = 75 ∧
    (assessThreat officeB [officeA, officeB] officeB.history).riskLevel = "critical" ∧
    ((assessThreat officeB [officeA, officeB] officeB.history).threats.map (·.type) =
      ["evil_twin", "open_network"]) ∧
    (assessThreat officeB [officeA, officeB] officeB.history).isHarmful = true ∧
    (assessThreat officeA [officeA, officeB] officeA.history).harmScore = 0 ∧
    (assessThreat officeA [officeA, officeB] officeA.history).riskLevel = "low" ∧
    (assessThreat officeA [officeA, officeB] officeA.history).isHarmful = false :=
  ⟨evilTwin_iff_aux net all, evilTwin_unique_aux net all, by decide, by decide, by decide,
   by decide, by decide, by decide, by decide⟩

/-- C3 witness: a record whose ssid is unique in the set never triggers the
evil-twin detector, at a concrete input. -/
theorem spec_C3_witness : detectEvilTwin officeA [officeA] = none :=
  (spec_C3 officeA [officeA]).2.1 (by decide)

/-- C4: for every call to assessThreat, the harm score is the exact sum of
the fixed points 30, 50, 25, 35, 20, 15 of the triggered detectors with no
ceiling, the risk level is critical, high, medium or low precisely on the
bands from 70, from 40, from 20 and below 20, and isHarmful holds exactly
from 40. -/
theorem spec_C4 (net : NetworkRec) (all : List NetworkRec) (hist : List HistEntry) :
    (assessThreat net all hist).harmScore =
      (if (checkSuspiciousSSID net.ssid).isSome then 30 else 0) +
      (if (detectEvilTwin net all).isSome then 50 else 0) +
      (if (checkOpenNetwork net).isSome then 25 else 0) +
      (if (detectSignalAnomalies net hist).isSome then 35 else 0) +
      (if (detectChannelThreats net all).isSome then 20 else 0) +
      (if (analyzeMACAddress net.bssid).isSome then 15 else 0) ∧
    ((assessThreat net all hist).riskLevel = "critical" ↔
      70 ≤ (assessThreat net all hist).harmScore) ∧
    ((assessThreat net all hist).riskLevel = "high" ↔
      40 ≤ (assessThreat net all hist).harmScore ∧ (assessThreat net all hist).harmScore < 70) ∧
    ((assessThreat net all hist).riskLevel = "medium" ↔
      20 ≤ (assessThreat net all hist).harmScore ∧ (assessThreat net all hist).harmScore < 40) ∧
    ((assessThreat net all hist).riskLevel = "low" ↔ (assessThreat net all hist).harmScore < 20) ∧
    ((assessThreat net all hist).isHarmful = true ↔ 40 ≤ (assessThreat net all hist).harmScore) := by
  refine ⟨rfl, ?_⟩
  simp only [assessThreat]
  exact riskCases _

/-- C5: the automatic escalation fires exactly when the assessment is
harmful and the current status is unknown, within the per-record step
immediately after the upsert of that record (records under other keys are
untouched by the step), and over a whole batch any record whose status
differs from unknown, such as a manually trusted one, keeps its status. -/
theorem spec_C5 (allNetworks : List NetworkRec) (dev : String) (now : Nat) (st : ScanState)
    (r : Report) (store : List NetworkRec) (rs : List Report) (k : String) :
    (jsFalsyStr r.bssid = false →
      lookupStatus (processReport allNetworks dev now st r).store (scanKey r) =
        some (if (assessThreat (upsertedRec st.store r dev now) allNetworks
                    (upsertedRec st.store r dev now).history).isHarmful
                 && ((upsertedRec st.store r dev now).status == Status.unknown)
              then Status.suspicious
              else (upsertedRec st.store r dev now).status)) ∧
    (jsFalsyStr r.bssid = false → k ≠ scanKey r →
      (processReport allNetworks dev now st r).store.find? (fun n => n.bssid == k) =
        st.store.find? (fun n => n.bssid == k)) ∧
    (∀ s0 : Status, lookupStatus store k = some s0 → s0 ≠ Status.unknown →
      lookupStatus (processScan store dev now rs).store k = some s0) :=
  ⟨processReport_status_key allNetworks dev now st r,
   fun h hk => processReport_find_other allNetworks dev now st r k h hk,
   fun s0 hl hs => scanLoop_status_preserved store dev now rs (initState store) k s0 hl hs⟩

/-- C5 witness: a trusted record observed by a harmful report keeps its
trusted status through the batch. -/
theorem spec_C5_witness :
    lookupStatus [trustedOffice] "11:22:33:44:55:66" = some Status.trusted ∧
    lookupStatus (processScan [trustedOffice] "d" 0 [repHarm]).store "11:22:33:44:55:66" =
      some Status.trusted :=
  ⟨by decide,
   (spec_C5 [] "d" 0 (initState []) repHarm [trustedOffice] [repHarm] "11:22:33:44:55:66").2.2
     Status.trusted (by decide) (by decide)⟩

/-- C6 counterexample: the manual status patch accepts the value unknown and
applies it, returning a trusted record to the unknown state, so some
operation of the system does return a record to unknown. -/
theorem spec_C6_counterexample :
    trustedOffice.status = Status.trusted ∧
    patchStatus [trustedOffice] "11:22:33:44:55:66" "unknown" =
      PatchResult.ok [{ trustedOffice with status := Status.unknown }]
        { trustedOffice with status := Status.unknown } := by
  constructor
  · decide
  · decide

/-- C6 amended: the intake pipeline never returns a settled record to
unknown (a record whose status differs from unknown keeps it through any
batch), but the manual status patch sets any of the three listed values,
including unknown, on the addressed record. -/
theorem spec_C6 (store : List NetworkRec) (dev : String) (now : Nat) (rs : List Report)
    (k : String) :
    (∀ s0 : Status, lookupStatus store k = some s0 → s0 ≠ Status.unknown →
      lookupStatus (processScan store dev now rs).store k = some s0) ∧
    (∀ (s : String) (rec : NetworkRec),
      store.find? (fun n => n.bssid == k) = some rec →
      ["trusted", "unknown", "suspicious"].contains s = true →
      patchStatus store k s =
        PatchResult.ok
          (store.map fun n =>
            if n.bssid == k then { rec with status := statusFromString s } else n)
          { rec with status := statusFromString s }) := by
  refine ⟨fun s0 hl hs => scanLoop_status_preserved store dev now rs (initState store) k s0 hl hs,
    ?_⟩
  intro s rec hfind hcont
  unfold patchStatus
  rw [hcont]
  simp only [Bool.not_true, Bool.false_eq_true, if_false]
  rw [hfind]

/-- C6 witness: the amended statement at a concrete store, showing both the
intake preservation and the manual patch to unknown. -/
theorem spec_C6_witness :
    lookupStatus (processScan [trustedOffice] "e" 1 [repHarm]).store "11:22:33:44:55:66" =
      some Status.trusted ∧
    patchStatus [trustedOffice] "11:22:33:44:55:66" "unknown" =
      PatchResult.ok [{ trustedOffice with status := Status.unknown }]
        { trustedOffice with status := Status.unknown } :=
  ⟨(spec_C6 [trustedOffice] "e" 1 [repHarm] "11:22:33:44:55:66").1
     Status.trusted (by decide) (by decide),
   (spec_C6 [trustedOffice] "e" 1 [] "11:22:33:44:55:66").2 "unknown" trustedOffice
     (by decide) (by decide)⟩

/-- C7: the signal-anomaly detector returns nothing below 5 history entries;
with at least 5, it reports the variation finding whenever two of the last
10 readings differ by more than 20 dBm, regardless of the observation count
(the variation condition takes priority), reports the high-frequency finding
when the variation is bounded by 20 and the count exceeds 100, and reports
nothing when both conditions fail; at most one finding per call. -/
theorem spec_C7 (net : NetworkRec) (h : List HistEntry) :
    (h.length < 5 → detectSignalAnomalies net h = none) ∧
    (5 ≤ h.length →
      ((∃ x ∈ (h.drop (h.length - 10)).map (·.rssi),
          ∃ y ∈ (h.drop (h.length - 10)).map (·.rssi), 20 < x - y) →
        (detectSignalAnomalies net h).map (·.type) = some "signal_anomaly") ∧
      ((∀ x ∈ (h.drop (h.length - 10)).map (·.rssi),
          ∀ y ∈ (h.drop (h.length - 10)).map (·.rssi), x - y ≤ 20) → 100 < net.seenCount →
        (detectSignalAnomalies net h).map (·.type) = some "high_frequency") ∧
      ((∀ x ∈ (h.drop (h.length - 10)).map (·.rssi),
          ∀ y ∈ (h.drop (h.length - 10)).map (·.rssi), x - y ≤ 20) → net.seenCount ≤ 100 →
        detectSignalAnomalies net h = none)) := by
  constructor
  · intro hlen
    unfold detectSignalAnomalies
    rw [if_pos hlen]
  · intro hlen
    have hnl : ¬ (h.length < 5) := by omega
    have hne : (h.drop (h.length - 10)).map (·.rssi) ≠ [] := by
      have hd : ((h.drop (h.length - 10)).map (·.rssi)).length = h.length - (h.length - 10) := by
        simp [List.length_drop]
      intro hcon
      rw [hcon] at hd
      simp at hd
      omega
    refine ⟨?_, ?_, ?_⟩
    · rintro ⟨x, hx, y, hy, hxy⟩
      have hvar : listMaxOf ((h.drop (h.length - 10)).map (·.rssi)) -
          listMinOf ((h.drop (h.length - 10)).map (·.rssi)) > 20 := by
        have h1 := le_listMaxOf hx
        have h2 := listMinOf_le hy
        omega
      simp only [detectSignalAnomalies, if_neg hnl, if_pos hvar]
      rfl
    · intro hall hcnt
      have hvar : ¬ (listMaxOf ((h.drop (h.length - 10)).map (·.rssi)) -
          listMinOf ((h.drop (h.length - 10)).map (·.rssi)) > 20) := by
        have h1 := listMaxOf_mem hne
        have h2 := listMinOf_mem hne
        have h3 := hall _ h1 _ h2
        omega
      simp only [detectSignalAnomalies, if_neg hnl, if_neg hvar, if_pos hcnt]
      rfl
    · intro hall hcnt
      have hvar : ¬ (listMaxOf ((h.drop (h.length - 10)).map (·.rssi)) -
          listMinOf ((h.drop (h.length - 10)).map (·.rssi)) > 20) := by
        have h1 := listMaxOf_mem hne
        have h2 := listMinOf_mem hne
        have h3 := hall _ h1 _ h2
        omega
      have hcnt2 : ¬ (net.seenCount > 100) := by omega
      simp only [detectSignalAnomalies, if_neg hnl, if_neg hvar, if_neg hcnt2]

/-- C7 witness: a record with variation 50 dBm over the last readings and an
observation count of 200 reports only the variation finding. -/
theorem spec_C7_witness :
    5 ≤ sigHist.length ∧
    (detectSignalAnomalies sigNet sigHist).map (·.type) = some "signal_anomaly" :=
  ⟨by decide, ((spec_C7 sigNet sigHist).2 (by decide)).1 (by decide)⟩

/-- C8: the threat query keeps exactly the assessments with a finding or a
positive score computed against the full loaded set (the response threat
list is a permutation of them), sorts them by descending harm score stably
(per-score subsequences are preserved), and the summary counts the kept
assessments by risk level and harmfulness; totals reflect the loaded set. -/
theorem spec_C8 (store : List NetworkRec) :
    (getThreats store).threats.Perm (keptAssessments store) ∧
    List.Pairwise (fun a b => b.harmScore ≤ a.harmScore) (getThreats store).threats ∧
    (∀ s : Nat, (getThreats store).threats.filter (fun a => a.harmScore == s) =
      (keptAssessments store).filter (fun a => a.harmScore == s)) ∧
    (getThreats store).summary.critical =
      ((keptAssessments store).filter fun t => t.riskLevel == "critical").length ∧
    (getThreats store).summary.high =
      ((keptAssessments store).filter fun t => t.riskLevel == "high").length ∧
    (getThreats store).summary.medium =
      ((keptAssessments store).filter fun t => t.riskLevel == "medium").length ∧
    (getThreats store).summary.low =
      ((keptAssessments store).filter fun t => t.riskLevel == "low").length ∧
    (getThreats store).summary.harmful =
      ((keptAssessments store).filter fun t => t.isHarmful).length ∧
    (getThreats store).totalNetworks = store.length ∧
    (getThreats store).threatsAnalyzed = (keptAssessments store).length := by
  have hperm := sortByHarm_perm (keptAssessments store)
  refine ⟨hperm, sortByHarm_sorted _, fun s => sortByHarm_filter _ s,
    ?_, ?_, ?_, ?_, ?_, rfl, ?_⟩
  · exact (hperm.filter _).length_eq
  · exact (hperm.filter _).length_eq
  · exact (hperm.filter _).length_eq
  · exact (hperm.filter _).length_eq
  · exact (hperm.filter _).length_eq
  · exact hperm.length_eq

/-- C9: a report without a bssid only appends its human-readable error
string (naming the offending ssid) at its position in the batch error list;
the store and every counter and threat item of the batch are exactly those
of the batch without it, so one malformed report never aborts the batch nor
touches any stored record. -/
theorem spec_C9 (store : List NetworkRec) (dev : String) (now : Nat)
    (rs1 : List Report) (bad : Report) (rs2 : List Report)
    (h : jsFalsyStr bad.bssid = true) :
    (processScan store dev now (rs1 ++ bad :: rs2)).store =
      (processScan store dev now (rs1 ++ rs2)).store ∧
    (processScan store dev now (rs1 ++ bad :: rs2)).processed =
      (processScan store dev now (rs1 ++ rs2)).processed ∧
    (processScan store dev now (rs1 ++ bad :: rs2)).created =
      (processScan store dev now (rs1 ++ rs2)).created ∧
    (processScan store dev now (rs1 ++ bad :: rs2)).updated =
      (processScan store dev now (rs1 ++ rs2)).updated ∧
    (processScan store dev now (rs1 ++ bad :: rs2)).threats =
      (processScan store dev now (rs1 ++ rs2)).threats ∧
    (processScan store dev now (rs1 ++ bad :: rs2)).errors =
      (processScan store dev now rs1).errors ++
        missingBssidMsg bad.ssid :: (processScan store dev now rs2).errors ∧
    (processScan store dev now (rs1 ++ rs2)).errors =
      (processScan store dev now rs1).errors ++ (processScan store dev now rs2).errors := by
  have hstrip : stripErr (processScan store dev now (rs1 ++ bad :: rs2)) =
      stripErr (processScan store dev now (rs1 ++ rs2)) := by
    unfold processScan
    rw [scanLoop_append, scanLoop_append]
    show stripErr (scanLoop store dev now
        (processReport store dev now (scanLoop store dev now (initState store) rs1) bad) rs2) = _
    apply scanLoop_stripErr
    simp [processReport, h, stripErr]
  have herr : ∀ xs : List Report, (processScan store dev now xs).errors = batchErrors xs := by
    intro xs
    unfold processScan
    rw [scanLoop_errors]
    rfl
  simp only [stripErr, Prod.mk.injEq] at hstrip
  obtain ⟨e1, e2, e3, e4, e5⟩ := hstrip
  refine ⟨e1, e2, e3, e4, e5, ?_, ?_⟩
  · rw [herr, herr, herr, batchErrors_append]
    have hb : batchErrors (bad :: rs2) = missingBssidMsg bad.ssid :: batchErrors rs2 := by
      simp [batchErrors, errDelta, h]
    rw [hb]
  · rw [herr, herr, herr, batchErrors_append]

/-- C9 witness: a bssid-less report inside a concrete two-report batch
leaves the store unchanged and lands its error at the right position. -/
theorem spec_C9_witness :
    jsFalsyStr repBad.bssid = true ∧
    (processScan [] "d" 0 ([repA] ++ repBad :: [repB])).store =
      (processScan [] "d" 0 ([repA] ++ [repB])).store ∧
    (processScan [] "d" 0 ([repA] ++ repBad :: [repB])).errors =
      (processScan [] "d" 0 [repA]).errors ++
        missingBssidMsg repBad.ssid :: (processScan [] "d" 0 [repB]).errors :=
  ⟨rfl, (spec_C9 [] "d" 0 [repA] repBad [repB] rfl).1,
   (spec_C9 [] "d" 0 [repA] repBad [repB] rfl).2.2.2.2.2.1⟩

/-- C10: every assessment carries at most one finding per detector, so the
findings list has at most 6 entries and the harm score is at most 175, the
sum of all six weights (the score is a natural number, hence at least 0). -/
theorem spec_C10 (net : NetworkRec) (all : List NetworkRec) (hist : List HistEntry) :
    (assessThreat net all hist).threats.length ≤ 6 ∧
    (assessThreat net all hist).harmScore ≤ 175 := by
  cases h1 : checkSuspiciousSSID net.ssid <;>
  cases h2 : detectEvilTwin net all <;>
  cases h3 : checkOpenNetwork net <;>
  cases h4 : detectSignalAnomalies net hist <;>
  cases h5 : detectChannelThreats net all <;>
  cases h6 : analyzeMACAddress net.bssid <;>
    simp [assessThreat, optToList, h1, h2, h3, h4, h5, h6]
